import Mathlib

/-!
Shallow embedding of a small payment ledger engine (a Rust program) and proofs
about it.

The embedding follows the source files closely:
* `types.rs`        : the data model (`MonetaryTransactionRecord`, `Transaction`,
                      `DisputableTransaction`, `Account`).
* `account_store.rs`: `HashMapAccountStore` with `add_to_balance`, `hold_amount`,
                      `release_held_amount`, `charge_back_amount`.
* `transaction_store.rs`: `HashMapTransactionStore` with `add_transaction`,
                      `dispute_transaction`, `undispute_transaction`.
* `transaction_handler.rs`: `TransactionHandler` with the five per-kind handlers
                      and `handle_transactions`.
* `csv_parser.rs`   : `raw_to_transaction`.

Modelling choices:
* `rust_decimal::Decimal` is an exact decimal type: every representable value
  is an integer multiple of `10 ^ (-28)`, and the only operations the program
  performs on amounts are addition, subtraction, negation, `min`, the order
  and the zero test. Scaling by `10 ^ 28` therefore embeds all amount
  arithmetic used here faithfully into `ℤ`, which is the model chosen (`ℤ`
  also kernel-computes, unlike `ℚ`). `Decimal::is_sign_negative` is modelled
  as `< 0` (exact for every value that is not a negative zero, a value no
  operation here produces from the inputs the claims are about).
* The two `HashMap`s are modelled as finite-support maps `key → Option value`;
  the claims never depend on iteration order.
* Rust's `Result<T>` becomes `Option T` (the error messages carry no
  semantics), and fallible handlers return their (possibly partially mutated)
  state together with a success flag, exactly mirroring which mutations have
  happened before the failing step in the source.
-/

namespace Ledger

/-- Client identifier (`u16` in the source; only ever compared for equality). -/
abbrev ClientId := Nat

/-- Transaction identifier (`u32` in the source; only ever compared for equality). -/
abbrev TransactionId := Nat

/-- Monetary amount (`rust_decimal::Decimal` in the source, scaled to `ℤ`). -/
abbrev Amount := ℤ

/-- `types.rs`: money flowing towards or from a client account. -/
structure MonetaryTransactionRecord where
  client : ClientId
  transaction : TransactionId
  amount : Amount
  deriving DecidableEq

/-- `types.rs`: references a `MonetaryTransactionRecord` in dispute handling. -/
structure DisputedTransactionRecord where
  client : ClientId
  transaction : TransactionId
  deriving DecidableEq

/-- `types.rs`: a transaction that can occur in the processor's input. -/
inductive Transaction where
  | Deposit (record : MonetaryTransactionRecord)
  | Withdrawal (record : MonetaryTransactionRecord)
  | Dispute (record : DisputedTransactionRecord)
  | Resolve (record : DisputedTransactionRecord)
  | Chargeback (record : DisputedTransactionRecord)
  deriving DecidableEq

/-- `types.rs`: only a limited set of transactions is disputable. -/
inductive DisputableTransaction where
  | Deposit (record : MonetaryTransactionRecord)
  deriving DecidableEq

/-- `account_store.rs`: the per-client data held by `HashMapAccountStore`. -/
structure AccountData where
  available : Amount
  held : Amount
  locked : Bool
  deriving DecidableEq

/-- The `data_store : HashMap<ClientId, AccountData>` of `HashMapAccountStore`. -/
def AccountStore := ClientId → Option AccountData

/-- `HashMapAccountStore::new`. -/
def AccountStore.empty : AccountStore := fun _ => none

/-- `account_store.rs`: `add_to_balance`. Positive amounts are deposits,
negative ones withdrawals. A missing account is created (only with a
non-negative opening balance); an existing account rejects the change when
locked or when it would drive `available` negative. -/
def add_to_balance (s : AccountStore) (client : ClientId) (amount : Amount) :
    Option AccountStore :=
  match s client with
  | some data =>
    if data.locked then
      none
    else if data.available + amount < 0 then
      none
    else
      some (fun c => if c = client then
        some { data with available := data.available + amount } else s c)
  | none =>
    if amount < 0 then
      none
    else
      some (fun c => if c = client then some ⟨amount, 0, false⟩ else s c)

/-- `account_store.rs`: `hold_amount`. Moves `min(available, amount)` from
`available` to `held`; rejects negative amounts and unknown clients. -/
def hold_amount (s : AccountStore) (client : ClientId) (amount : Amount) :
    Option AccountStore :=
  if amount < 0 then
    none
  else
    match s client with
    | some data =>
      some (fun c => if c = client then
        some ⟨data.available - min data.available amount,
              data.held + min data.available amount, data.locked⟩ else s c)
    | none => none

/-- `account_store.rs`: `release_held_amount`. Moves `min(held, amount)` from
`held` back to `available`; rejects negative amounts and unknown clients. -/
def release_held_amount (s : AccountStore) (client : ClientId) (amount : Amount) :
    Option AccountStore :=
  if amount < 0 then
    none
  else
    match s client with
    | some data =>
      some (fun c => if c = client then
        some ⟨data.available + min data.held amount,
              data.held - min data.held amount, data.locked⟩ else s c)
    | none => none

/-- `account_store.rs`: `charge_back_amount`. Removes `min(held, amount)` from
`held` and sets `locked`; rejects negative amounts and unknown clients. -/
def charge_back_amount (s : AccountStore) (client : ClientId) (amount : Amount) :
    Option AccountStore :=
  if amount < 0 then
    none
  else
    match s client with
    | some data =>
      some (fun c => if c = client then
        some ⟨data.available, data.held - min data.held amount, true⟩ else s c)
    | none => none

/-- `transaction_store.rs`: the dispute lifecycle state of a stored deposit
(the source spells the third state `ChargebackOcurred`). -/
inductive DisputeState where
  | NotDisputed
  | Disputed
  | ChargebackOcurred
  deriving DecidableEq

/-- `transaction_store.rs`: the per-transaction data held by
`HashMapTransactionStore`. -/
structure DisputableTransactionData where
  client : ClientId
  amount : Amount
  state : DisputeState
  deriving DecidableEq

/-- The `data_store : HashMap<TransactionId, DisputableTransactionData>` of
`HashMapTransactionStore`. -/
def TransactionStore := TransactionId → Option DisputableTransactionData

/-- `HashMapTransactionStore::new`. -/
def TransactionStore.empty : TransactionStore := fun _ => none

/-- `transaction_store.rs`: how a disputed transaction is to be settled. -/
inductive UndisputeOutcome where
  | Resolve
  | Chargeback

/-- `transaction_store.rs`: `add_transaction`. Fails if a record with the same
transaction id is already present; otherwise stores the deposit as
`NotDisputed`. -/
def add_transaction (s : TransactionStore) (transaction : DisputableTransaction) :
    Option TransactionStore :=
  match transaction with
  | .Deposit record =>
    match s record.transaction with
    | some _ => none
    | none =>
      some (fun tx => if tx = record.transaction then
        some ⟨record.client, record.amount, .NotDisputed⟩ else s tx)

/-- `transaction_store.rs`: `dispute_transaction`. Fails on a missing record, a
client mismatch, or a state other than `NotDisputed`; otherwise transitions to
`Disputed` and returns the stored deposit. -/
def dispute_transaction (s : TransactionStore) (transaction : DisputedTransactionRecord) :
    Option (TransactionStore × DisputableTransaction) :=
  match s transaction.transaction with
  | some data =>
    if data.client ≠ transaction.client then
      none
    else if data.state ≠ DisputeState.NotDisputed then
      none
    else
      some (fun tx => if tx = transaction.transaction then
              some { data with state := .Disputed } else s tx,
            .Deposit ⟨data.client, transaction.transaction, data.amount⟩)
  | none => none

/-- The `match outcome` inside `undispute_transaction`: the state a disputed
record transitions to for each outcome. -/
def undisputedState (outcome : UndisputeOutcome) : DisputeState :=
  match outcome with
  | .Resolve => .NotDisputed
  | .Chargeback => .ChargebackOcurred

/-- `transaction_store.rs`: `undispute_transaction`. Fails on a missing record,
a client mismatch, or a state other than `Disputed`; otherwise transitions to
`NotDisputed` (Resolve) or `ChargebackOcurred` (Chargeback) and returns the
stored deposit. -/
def undispute_transaction (s : TransactionStore) (transaction : DisputedTransactionRecord)
    (outcome : UndisputeOutcome) : Option (TransactionStore × DisputableTransaction) :=
  match s transaction.transaction with
  | some data =>
    if data.client ≠ transaction.client then
      none
    else if data.state ≠ DisputeState.Disputed then
      none
    else
      some (fun tx => if tx = transaction.transaction then
              some { data with state := undisputedState outcome }
            else s tx,
            .Deposit ⟨data.client, transaction.transaction, data.amount⟩)
  | none => none

/-- `transaction_handler.rs`: the engine's state, owning both stores. -/
structure TransactionHandler where
  account_store : AccountStore
  transaction_store : TransactionStore

/-- `TransactionHandler::new`. -/
def TransactionHandler.new : TransactionHandler :=
  ⟨AccountStore.empty, TransactionStore.empty⟩

/-- `transaction_handler.rs`: `handle_deposit`. Records the deposit first; a
record-store rejection skips the balance change, while a balance-change
rejection keeps the already stored record (the `Bool` is the success flag). -/
def handle_deposit (st : TransactionHandler) (record : MonetaryTransactionRecord) :
    TransactionHandler × Bool :=
  match add_transaction st.transaction_store (.Deposit record) with
  | none => (st, false)
  | some ts =>
    match add_to_balance st.account_store record.client record.amount with
    | none => ({ st with transaction_store := ts }, false)
    | some acc => (⟨acc, ts⟩, true)

/-- `transaction_handler.rs`: `handle_withdrawal`. Debits the negated amount
directly from the account store; the transaction store is never touched. -/
def handle_withdrawal (st : TransactionHandler) (record : MonetaryTransactionRecord) :
    TransactionHandler × Bool :=
  match add_to_balance st.account_store record.client (-record.amount) with
  | none => (st, false)
  | some acc => ({ st with account_store := acc }, true)

/-- `transaction_handler.rs`: `handle_dispute`. Marks the record disputed, then
holds the returned amount; a failing hold keeps the record marked. -/
def handle_dispute (st : TransactionHandler) (record : DisputedTransactionRecord) :
    TransactionHandler × Bool :=
  match dispute_transaction st.transaction_store record with
  | none => (st, false)
  | some (ts, .Deposit data) =>
    match hold_amount st.account_store data.client data.amount with
    | none => ({ st with transaction_store := ts }, false)
    | some acc => (⟨acc, ts⟩, true)

/-- `transaction_handler.rs`: `handle_resolve`. Undisputes with outcome
Resolve, then releases the returned amount. -/
def handle_resolve (st : TransactionHandler) (record : DisputedTransactionRecord) :
    TransactionHandler × Bool :=
  match undispute_transaction st.transaction_store record .Resolve with
  | none => (st, false)
  | some (ts, .Deposit data) =>
    match release_held_amount st.account_store data.client data.amount with
    | none => ({ st with transaction_store := ts }, false)
    | some acc => (⟨acc, ts⟩, true)

/-- `transaction_handler.rs`: `handle_chargeback`. Undisputes with outcome
Chargeback, then charges back the returned amount (which locks the account). -/
def handle_chargeback (st : TransactionHandler) (record : DisputedTransactionRecord) :
    TransactionHandler × Bool :=
  match undispute_transaction st.transaction_store record .Chargeback with
  | none => (st, false)
  | some (ts, .Deposit data) =>
    match charge_back_amount st.account_store data.client data.amount with
    | none => ({ st with transaction_store := ts }, false)
    | some acc => (⟨acc, ts⟩, true)

/-- The per-kind dispatch inside `handle_transactions`. -/
def handleTransaction (st : TransactionHandler) (t : Transaction) :
    TransactionHandler × Bool :=
  match t with
  | .Deposit record => handle_deposit st record
  | .Withdrawal record => handle_withdrawal st record
  | .Dispute record => handle_dispute st record
  | .Resolve record => handle_resolve st record
  | .Chargeback record => handle_chargeback st record

/-- `transaction_handler.rs`: `handle_transactions`. Each input is either a
parsed transaction or an upstream parse failure (`none`); failures of any kind
are dropped and processing continues. -/
def handle_transactions (st : TransactionHandler) (ts : List (Option Transaction)) :
    TransactionHandler :=
  ts.foldl (fun st t =>
    match t with
    | none => st
    | some t => (handleTransaction st t).1) st

/-- Every account the store knows has non-negative `available` and `held`. -/
def accountsNonneg (s : AccountStore) : Prop :=
  ∀ c data, s c = some data → 0 ≤ data.available ∧ 0 ≤ data.held

/-- `csv_parser.rs`: the transaction type identifiers of the input rows. -/
inductive RawTransactionType where
  | Deposit
  | Withdrawal
  | Dispute
  | Resolve
  | Chargeback

/-- `csv_parser.rs`: a single parsed row; the amount may be missing. -/
structure RawTransaction where
  transaction_type : RawTransactionType
  client : ClientId
  transaction : TransactionId
  amount : Option Amount

/-- `csv_parser.rs`: `raw_to_transaction`. Deposits and withdrawals require an
amount (of any sign); dispute/resolve/chargeback silently discard one. -/
def raw_to_transaction (raw : RawTransaction) : Option Transaction :=
  match raw.transaction_type with
  | .Deposit =>
    match raw.amount with
    | some amount => some (.Deposit ⟨raw.client, raw.transaction, amount⟩)
    | none => none
  | .Withdrawal =>
    match raw.amount with
    | some amount => some (.Withdrawal ⟨raw.client, raw.transaction, amount⟩)
    | none => none
  | .Dispute => some (.Dispute ⟨raw.client, raw.transaction⟩)
  | .Resolve => some (.Resolve ⟨raw.client, raw.transaction⟩)
  | .Chargeback => some (.Chargeback ⟨raw.client, raw.transaction⟩)

end Ledger

namespace Ledger

/-! ### Characterization lemmas for the account-store operations -/

theorem add_to_balance_new_rejected {s : AccountStore} {client : ClientId}
    {amount : Amount} (hc : s client = none) (ha : amount < 0) :
    add_to_balance s client amount = none := by
  unfold add_to_balance
  rw [hc]
  simp [ha]

theorem add_to_balance_new_eq {s : AccountStore} {client : ClientId}
    {amount : Amount} (hc : s client = none) (ha : 0 ≤ amount) :
    add_to_balance s client amount
      = some (fun c => if c = client then some ⟨amount, 0, false⟩ else s c) := by
  unfold add_to_balance
  rw [hc]
  simp [not_lt.mpr ha]

theorem add_to_balance_locked_rejected {s : AccountStore} {client : ClientId}
    {amount : Amount} {data : AccountData} (hc : s client = some data)
    (hl : data.locked = true) :
    add_to_balance s client amount = none := by
  unfold add_to_balance
  rw [hc]
  simp [hl]

theorem add_to_balance_insufficient_rejected {s : AccountStore} {client : ClientId}
    {amount : Amount} {data : AccountData} (hc : s client = some data)
    (hl : data.locked = false) (hneg : data.available + amount < 0) :
    add_to_balance s client amount = none := by
  unfold add_to_balance
  rw [hc]
  simp [hl, hneg]

theorem add_to_balance_existing_eq {s : AccountStore} {client : ClientId}
    {amount : Amount} {data : AccountData} (hc : s client = some data)
    (hl : data.locked = false) (hge : 0 ≤ data.available + amount) :
    add_to_balance s client amount
      = some (fun c => if c = client then
          some ⟨data.available + amount, data.held, data.locked⟩ else s c) := by
  unfold add_to_balance
  rw [hc]
  simp [hl, not_lt.mpr hge]

theorem hold_amount_neg_rejected {s : AccountStore} {client : ClientId}
    {amount : Amount} (ha : amount < 0) :
    hold_amount s client amount = none := by
  unfold hold_amount
  simp [ha]

theorem hold_amount_missing_rejected {s : AccountStore} {client : ClientId}
    {amount : Amount} (hc : s client = none) (ha : 0 ≤ amount) :
    hold_amount s client amount = none := by
  unfold hold_amount
  rw [hc]
  simp [not_lt.mpr ha]

theorem hold_amount_eq {s : AccountStore} {client : ClientId} {amount : Amount}
    {data : AccountData} (hc : s client = some data) (ha : 0 ≤ amount) :
    hold_amount s client amount
      = some (fun c => if c = client then
          some ⟨data.available - min data.available amount,
                data.held + min data.available amount, data.locked⟩ else s c) := by
  unfold hold_amount
  rw [if_neg (not_lt.mpr ha), hc]

theorem release_held_amount_neg_rejected {s : AccountStore} {client : ClientId}
    {amount : Amount} (ha : amount < 0) :
    release_held_amount s client amount = none := by
  unfold release_held_amount
  simp [ha]

theorem release_held_amount_missing_rejected {s : AccountStore} {client : ClientId}
    {amount : Amount} (hc : s client = none) (ha : 0 ≤ amount) :
    release_held_amount s client amount = none := by
  unfold release_held_amount
  rw [hc]
  simp [not_lt.mpr ha]

theorem release_held_amount_eq {s : AccountStore} {client : ClientId} {amount : Amount}
    {data : AccountData} (hc : s client = some data) (ha : 0 ≤ amount) :
    release_held_amount s client amount
      = some (fun c => if c = client then
          some ⟨data.available + min data.held amount,
                data.held - min data.held amount, data.locked⟩ else s c) := by
  unfold release_held_amount
  rw [if_neg (not_lt.mpr ha), hc]

theorem charge_back_amount_neg_rejected {s : AccountStore} {client : ClientId}
    {amount : Amount} (ha : amount < 0) :
    charge_back_amount s client amount = none := by
  unfold charge_back_amount
  simp [ha]

theorem charge_back_amount_missing_rejected {s : AccountStore} {client : ClientId}
    {amount : Amount} (hc : s client = none) (ha : 0 ≤ amount) :
    charge_back_amount s client amount = none := by
  unfold charge_back_amount
  rw [hc]
  simp [not_lt.mpr ha]

theorem charge_back_amount_eq {s : AccountStore} {client : ClientId} {amount : Amount}
    {data : AccountData} (hc : s client = some data) (ha : 0 ≤ amount) :
    charge_back_amount s client amount
      = some (fun c => if c = client then
          some ⟨data.available, data.held - min data.held amount, true⟩ else s c) := by
  unfold charge_back_amount
  rw [if_neg (not_lt.mpr ha), hc]

end Ledger

namespace Ledger

/-! ### The non-negativity invariant of the account store -/

theorem accountsNonneg_empty : accountsNonneg AccountStore.empty := by
  intro c data h
  exact absurd h (by simp [AccountStore.empty])

theorem accountsNonneg_update {s : AccountStore} {client : ClientId}
    {newData : AccountData} (hs : accountsNonneg s) (h1 : 0 ≤ newData.available)
    (h2 : 0 ≤ newData.held) :
    accountsNonneg (fun c => if c = client then some newData else s c) := by
  intro c d hd
  have hd2 : (if c = client then some newData else s c) = some d := hd
  by_cases hcc : c = client
  · rw [if_pos hcc] at hd2
    injection hd2 with hd2
    subst hd2
    exact ⟨h1, h2⟩
  · rw [if_neg hcc] at hd2
    exact hs c d hd2

theorem add_to_balance_nonneg {s : AccountStore} {client : ClientId} {amount : Amount}
    {s1 : AccountStore} (hs : accountsNonneg s)
    (h : add_to_balance s client amount = some s1) : accountsNonneg s1 := by
  cases hc : s client with
  | none =>
    by_cases hneg : amount < 0
    · rw [add_to_balance_new_rejected hc hneg] at h
      exact Option.noConfusion h
    · rw [add_to_balance_new_eq hc (not_lt.mp hneg)] at h
      injection h with h
      subst h
      exact accountsNonneg_update hs (not_lt.mp hneg) (le_refl 0)
  | some data =>
    by_cases hl : data.locked
    · rw [add_to_balance_locked_rejected hc hl] at h
      exact Option.noConfusion h
    · have hl2 : data.locked = false := by simpa using hl
      by_cases hneg : data.available + amount < 0
      · rw [add_to_balance_insufficient_rejected hc hl2 hneg] at h
        exact Option.noConfusion h
      · rw [add_to_balance_existing_eq hc hl2 (not_lt.mp hneg)] at h
        injection h with h
        subst h
        exact accountsNonneg_update hs (not_lt.mp hneg) (hs client data hc).2

theorem hold_amount_nonneg {s : AccountStore} {client : ClientId} {amount : Amount}
    {s1 : AccountStore} (hs : accountsNonneg s)
    (h : hold_amount s client amount = some s1) : accountsNonneg s1 := by
  by_cases hneg : amount < 0
  · rw [hold_amount_neg_rejected hneg] at h
    exact Option.noConfusion h
  · cases hc : s client with
    | none =>
      rw [hold_amount_missing_rejected hc (not_lt.mp hneg)] at h
      exact Option.noConfusion h
    | some data =>
      rw [hold_amount_eq hc (not_lt.mp hneg)] at h
      injection h with h
      subst h
      have h0 := hs client data hc
      exact accountsNonneg_update hs (sub_nonneg.mpr (min_le_left _ _))
        (add_nonneg h0.2 (le_min h0.1 (not_lt.mp hneg)))

theorem release_held_amount_nonneg {s : AccountStore} {client : ClientId}
    {amount : Amount} {s1 : AccountStore} (hs : accountsNonneg s)
    (h : release_held_amount s client amount = some s1) : accountsNonneg s1 := by
  by_cases hneg : amount < 0
  · rw [release_held_amount_neg_rejected hneg] at h
    exact Option.noConfusion h
  · cases hc : s client with
    | none =>
      rw [release_held_amount_missing_rejected hc (not_lt.mp hneg)] at h
      exact Option.noConfusion h
    | some data =>
      rw [release_held_amount_eq hc (not_lt.mp hneg)] at h
      injection h with h
      subst h
      have h0 := hs client data hc
      exact accountsNonneg_update hs
        (add_nonneg h0.1 (le_min h0.2 (not_lt.mp hneg)))
        (sub_nonneg.mpr (min_le_left _ _))

theorem charge_back_amount_nonneg {s : AccountStore} {client : ClientId}
    {amount : Amount} {s1 : AccountStore} (hs : accountsNonneg s)
    (h : charge_back_amount s client amount = some s1) : accountsNonneg s1 := by
  by_cases hneg : amount < 0
  · rw [charge_back_amount_neg_rejected hneg] at h
    exact Option.noConfusion h
  · cases hc : s client with
    | none =>
      rw [charge_back_amount_missing_rejected hc (not_lt.mp hneg)] at h
      exact Option.noConfusion h
    | some data =>
      rw [charge_back_amount_eq hc (not_lt.mp hneg)] at h
      injection h with h
      subst h
      have h0 := hs client data hc
      exact accountsNonneg_update hs h0.1 (sub_nonneg.mpr (min_le_left _ _))

end Ledger

namespace Ledger

/-! ### The invariant is preserved by every handler and by the engine loop -/

theorem handle_deposit_nonneg {st : TransactionHandler} {r : MonetaryTransactionRecord}
    (hs : accountsNonneg st.account_store) :
    accountsNonneg (handle_deposit st r).1.account_store := by
  unfold handle_deposit
  cases h1 : add_transaction st.transaction_store (.Deposit r) with
  | none => exact hs
  | some ts =>
    cases h2 : add_to_balance st.account_store r.client r.amount with
    | none => exact hs
    | some acc => exact add_to_balance_nonneg hs h2

theorem handle_withdrawal_nonneg {st : TransactionHandler}
    {r : MonetaryTransactionRecord} (hs : accountsNonneg st.account_store) :
    accountsNonneg (handle_withdrawal st r).1.account_store := by
  unfold handle_withdrawal
  cases h1 : add_to_balance st.account_store r.client (-r.amount) with
  | none => exact hs
  | some acc => exact add_to_balance_nonneg hs h1

theorem handle_dispute_nonneg {st : TransactionHandler}
    {r : DisputedTransactionRecord} (hs : accountsNonneg st.account_store) :
    accountsNonneg (handle_dispute st r).1.account_store := by
  unfold handle_dispute
  cases h1 : dispute_transaction st.transaction_store r with
  | none => exact hs
  | some val =>
    obtain ⟨ts, td⟩ := val
    cases td with
    | Deposit data =>
      dsimp only
      cases h2 : hold_amount st.account_store data.client data.amount with
      | none => exact hs
      | some acc => exact hold_amount_nonneg hs h2

theorem handle_resolve_nonneg {st : TransactionHandler}
    {r : DisputedTransactionRecord} (hs : accountsNonneg st.account_store) :
    accountsNonneg (handle_resolve st r).1.account_store := by
  unfold handle_resolve
  cases h1 : undispute_transaction st.transaction_store r .Resolve with
  | none => exact hs
  | some val =>
    obtain ⟨ts, td⟩ := val
    cases td with
    | Deposit data =>
      dsimp only
      cases h2 : release_held_amount st.account_store data.client data.amount with
      | none => exact hs
      | some acc => exact release_held_amount_nonneg hs h2

theorem handle_chargeback_nonneg {st : TransactionHandler}
    {r : DisputedTransactionRecord} (hs : accountsNonneg st.account_store) :
    accountsNonneg (handle_chargeback st r).1.account_store := by
  unfold handle_chargeback
  cases h1 : undispute_transaction st.transaction_store r .Chargeback with
  | none => exact hs
  | some val =>
    obtain ⟨ts, td⟩ := val
    cases td with
    | Deposit data =>
      dsimp only
      cases h2 : charge_back_amount st.account_store data.client data.amount with
      | none => exact hs
      | some acc => exact charge_back_amount_nonneg hs h2

theorem handleTransaction_nonneg {st : TransactionHandler} {t : Transaction}
    (hs : accountsNonneg st.account_store) :
    accountsNonneg (handleTransaction st t).1.account_store := by
  cases t with
  | Deposit r => exact handle_deposit_nonneg hs
  | Withdrawal r => exact handle_withdrawal_nonneg hs
  | Dispute r => exact handle_dispute_nonneg hs
  | Resolve r => exact handle_resolve_nonneg hs
  | Chargeback r => exact handle_chargeback_nonneg hs

theorem handle_transactions_cons (st : TransactionHandler) (t : Option Transaction)
    (ts : List (Option Transaction)) :
    handle_transactions st (t :: ts)
      = handle_transactions
          (match t with | none => st | some t2 => (handleTransaction st t2).1) ts := rfl

theorem handle_transactions_nonneg {st : TransactionHandler}
    (ts : List (Option Transaction)) (hs : accountsNonneg st.account_store) :
    accountsNonneg (handle_transactions st ts).account_store := by
  induction ts generalizing st with
  | nil => exact hs
  | cons t ts ih =>
    rw [handle_transactions_cons]
    cases t with
    | none => exact ih hs
    | some t2 => exact ih (handleTransaction_nonneg hs)

end Ledger

namespace Ledger

/-! ### Characterization lemmas for the transaction-store operations -/

theorem add_transaction_dup {s : TransactionStore} {r : MonetaryTransactionRecord}
    {d : DisputableTransactionData} (hc : s r.transaction = some d) :
    add_transaction s (.Deposit r) = none := by
  unfold add_transaction
  dsimp only
  rw [hc]

theorem add_transaction_new_eq {s : TransactionStore} {r : MonetaryTransactionRecord}
    (hc : s r.transaction = none) :
    add_transaction s (.Deposit r)
      = some (fun tx => if tx = r.transaction then
          some ⟨r.client, r.amount, .NotDisputed⟩ else s tx) := by
  unfold add_transaction
  dsimp only
  rw [hc]

theorem dispute_transaction_missing {s : TransactionStore}
    {r : DisputedTransactionRecord} (hc : s r.transaction = none) :
    dispute_transaction s r = none := by
  unfold dispute_transaction
  rw [hc]

theorem dispute_transaction_mismatch {s : TransactionStore}
    {r : DisputedTransactionRecord} {data : DisputableTransactionData}
    (hc : s r.transaction = some data) (hcl : data.client ≠ r.client) :
    dispute_transaction s r = none := by
  unfold dispute_transaction
  rw [hc]
  simp [hcl]

theorem dispute_transaction_wrong_state {s : TransactionStore}
    {r : DisputedTransactionRecord} {data : DisputableTransactionData}
    (hc : s r.transaction = some data) (hst : data.state ≠ DisputeState.NotDisputed) :
    dispute_transaction s r = none := by
  unfold dispute_transaction
  rw [hc]
  by_cases hcl : data.client = r.client
  · simp [hcl, hst]
  · simp [hcl]

theorem dispute_transaction_eq {s : TransactionStore} {r : DisputedTransactionRecord}
    {data : DisputableTransactionData} (hc : s r.transaction = some data)
    (hcl : data.client = r.client) (hst : data.state = DisputeState.NotDisputed) :
    dispute_transaction s r
      = some (fun tx => if tx = r.transaction then
                some ⟨data.client, data.amount, .Disputed⟩ else s tx,
              .Deposit ⟨data.client, r.transaction, data.amount⟩) := by
  unfold dispute_transaction
  rw [hc]
  simp [hcl, hst]

theorem dispute_transaction_inv {s : TransactionStore} {r : DisputedTransactionRecord}
    {s1 : TransactionStore} {rec : DisputableTransaction}
    (h : dispute_transaction s r = some (s1, rec)) :
    ∃ data, s r.transaction = some data ∧ data.client = r.client ∧
      data.state = DisputeState.NotDisputed ∧
      s1 = (fun tx => if tx = r.transaction then
              some ⟨data.client, data.amount, .Disputed⟩ else s tx) ∧
      rec = .Deposit ⟨data.client, r.transaction, data.amount⟩ := by
  cases hc : s r.transaction with
  | none =>
    rw [dispute_transaction_missing hc] at h
    exact Option.noConfusion h
  | some data =>
    by_cases hcl : data.client = r.client
    · by_cases hst : data.state = DisputeState.NotDisputed
      · rw [dispute_transaction_eq hc hcl hst] at h
        injection h with h
        exact ⟨data, rfl, hcl, hst, (congrArg Prod.fst h).symm,
          (congrArg Prod.snd h).symm⟩
      · rw [dispute_transaction_wrong_state hc hst] at h
        exact Option.noConfusion h
    · rw [dispute_transaction_mismatch hc hcl] at h
      exact Option.noConfusion h

theorem undispute_transaction_missing {s : TransactionStore}
    {r : DisputedTransactionRecord} {o : UndisputeOutcome} (hc : s r.transaction = none) :
    undispute_transaction s r o = none := by
  unfold undispute_transaction
  rw [hc]

theorem undispute_transaction_mismatch {s : TransactionStore}
    {r : DisputedTransactionRecord} {o : UndisputeOutcome}
    {data : DisputableTransactionData}
    (hc : s r.transaction = some data) (hcl : data.client ≠ r.client) :
    undispute_transaction s r o = none := by
  unfold undispute_transaction
  rw [hc]
  simp [hcl]

theorem undispute_transaction_wrong_state {s : TransactionStore}
    {r : DisputedTransactionRecord} {o : UndisputeOutcome}
    {data : DisputableTransactionData}
    (hc : s r.transaction = some data) (hst : data.state ≠ DisputeState.Disputed) :
    undispute_transaction s r o = none := by
  unfold undispute_transaction
  rw [hc]
  by_cases hcl : data.client = r.client
  · simp [hcl, hst]
  · simp [hcl]

theorem undispute_transaction_eq {s : TransactionStore} {r : DisputedTransactionRecord}
    {o : UndisputeOutcome} {data : DisputableTransactionData}
    (hc : s r.transaction = some data) (hcl : data.client = r.client)
    (hst : data.state = DisputeState.Disputed) :
    undispute_transaction s r o
      = some (fun tx => if tx = r.transaction then
                some ⟨data.client, data.amount, undisputedState o⟩ else s tx,
              .Deposit ⟨data.client, r.transaction, data.amount⟩) := by
  unfold undispute_transaction
  rw [hc]
  simp [hcl, hst]

theorem undispute_transaction_inv {s : TransactionStore}
    {r : DisputedTransactionRecord} {o : UndisputeOutcome} {s1 : TransactionStore}
    {rec : DisputableTransaction} (h : undispute_transaction s r o = some (s1, rec)) :
    ∃ data, s r.transaction = some data ∧ data.client = r.client ∧
      data.state = DisputeState.Disputed ∧
      s1 = (fun tx => if tx = r.transaction then
              some ⟨data.client, data.amount, undisputedState o⟩ else s tx) ∧
      rec = .Deposit ⟨data.client, r.transaction, data.amount⟩ := by
  cases hc : s r.transaction with
  | none =>
    rw [undispute_transaction_missing hc] at h
    exact Option.noConfusion h
  | some data =>
    by_cases hcl : data.client = r.client
    · by_cases hst : data.state = DisputeState.Disputed
      · rw [undispute_transaction_eq hc hcl hst] at h
        injection h with h
        exact ⟨data, rfl, hcl, hst, (congrArg Prod.fst h).symm,
          (congrArg Prod.snd h).symm⟩
      · rw [undispute_transaction_wrong_state hc hst] at h
        exact Option.noConfusion h
    · rw [undispute_transaction_mismatch hc hcl] at h
      exact Option.noConfusion h

end Ledger

namespace Ledger

/-! ### Characterization lemmas for the engine's handlers -/

theorem handle_deposit_dup {st : TransactionHandler} {r : MonetaryTransactionRecord}
    {d : DisputableTransactionData} (hc : st.transaction_store r.transaction = some d) :
    handle_deposit st r = (st, false) := by
  unfold handle_deposit
  rw [add_transaction_dup hc]

theorem handle_deposit_fail_keeps_record {st : TransactionHandler}
    {r : MonetaryTransactionRecord}
    (hnew : st.transaction_store r.transaction = none)
    (hfail : add_to_balance st.account_store r.client r.amount = none) :
    handle_deposit st r
      = (⟨st.account_store,
          fun tx => if tx = r.transaction then
            some ⟨r.client, r.amount, .NotDisputed⟩ else st.transaction_store tx⟩,
         false) := by
  unfold handle_deposit
  rw [add_transaction_new_eq hnew]
  dsimp only
  rw [hfail]

theorem handle_withdrawal_frame (st : TransactionHandler)
    (r : MonetaryTransactionRecord) :
    (handle_withdrawal st r).1.transaction_store = st.transaction_store := by
  unfold handle_withdrawal
  cases h : add_to_balance st.account_store r.client (-r.amount) with
  | none => rfl
  | some acc => rfl

theorem handle_dispute_missing {st : TransactionHandler}
    {r : DisputedTransactionRecord} (hc : st.transaction_store r.transaction = none) :
    handle_dispute st r = (st, false) := by
  unfold handle_dispute
  rw [dispute_transaction_missing hc]

theorem handle_resolve_missing {st : TransactionHandler}
    {r : DisputedTransactionRecord} (hc : st.transaction_store r.transaction = none) :
    handle_resolve st r = (st, false) := by
  unfold handle_resolve
  rw [undispute_transaction_missing hc]

theorem handle_chargeback_missing {st : TransactionHandler}
    {r : DisputedTransactionRecord} (hc : st.transaction_store r.transaction = none) :
    handle_chargeback st r = (st, false) := by
  unfold handle_chargeback
  rw [undispute_transaction_missing hc]

theorem handle_dispute_eq {st : TransactionHandler} {c : ClientId} {tx : TransactionId}
    {a : Amount} {acct : AccountData}
    (hrec : st.transaction_store tx = some ⟨c, a, .NotDisputed⟩)
    (hacc : st.account_store c = some acct) (ha : 0 ≤ a) :
    handle_dispute st ⟨c, tx⟩
      = (⟨fun c2 => if c2 = c then
            some ⟨acct.available - min acct.available a,
                  acct.held + min acct.available a, acct.locked⟩
          else st.account_store c2,
          fun tx2 => if tx2 = tx then some ⟨c, a, .Disputed⟩
          else st.transaction_store tx2⟩, true) := by
  unfold handle_dispute
  rw [dispute_transaction_eq (r := ⟨c, tx⟩) hrec rfl rfl]
  dsimp only
  rw [hold_amount_eq hacc ha]

theorem handle_resolve_eq {st : TransactionHandler} {c : ClientId} {tx : TransactionId}
    {a : Amount} {acct : AccountData}
    (hrec : st.transaction_store tx = some ⟨c, a, .Disputed⟩)
    (hacc : st.account_store c = some acct) (ha : 0 ≤ a) :
    handle_resolve st ⟨c, tx⟩
      = (⟨fun c2 => if c2 = c then
            some ⟨acct.available + min acct.held a,
                  acct.held - min acct.held a, acct.locked⟩
          else st.account_store c2,
          fun tx2 => if tx2 = tx then some ⟨c, a, .NotDisputed⟩
          else st.transaction_store tx2⟩, true) := by
  unfold handle_resolve
  rw [undispute_transaction_eq (r := ⟨c, tx⟩) hrec rfl rfl]
  dsimp only [undisputedState]
  rw [release_held_amount_eq hacc ha]

theorem handle_chargeback_eq {st : TransactionHandler} {c : ClientId}
    {tx : TransactionId} {a : Amount} {acct : AccountData}
    (hrec : st.transaction_store tx = some ⟨c, a, .Disputed⟩)
    (hacc : st.account_store c = some acct) (ha : 0 ≤ a) :
    handle_chargeback st ⟨c, tx⟩
      = (⟨fun c2 => if c2 = c then
            some ⟨acct.available, acct.held - min acct.held a, true⟩
          else st.account_store c2,
          fun tx2 => if tx2 = tx then some ⟨c, a, .ChargebackOcurred⟩
          else st.transaction_store tx2⟩, true) := by
  unfold handle_chargeback
  rw [undispute_transaction_eq (r := ⟨c, tx⟩) hrec rfl rfl]
  dsimp only [undisputedState]
  rw [charge_back_amount_eq hacc ha]

end Ledger

namespace Ledger

/-! ### Claim theorems -/

/-- C1: for every sequence of transaction inputs (valid or not) processed by
the engine from its initial state, every client account in the account store
has `available ≥ 0` and `held ≥ 0`; since every prefix of an input sequence is
itself an input sequence, the invariant holds after every individual
operation. -/
theorem engine_accounts_nonneg (ts : List (Option Transaction)) (c : ClientId)
    (data : AccountData)
    (h : (handle_transactions TransactionHandler.new ts).account_store c = some data) :
    0 ≤ data.available ∧ 0 ≤ data.held :=
  handle_transactions_nonneg ts accountsNonneg_empty c data h

theorem engine_accounts_nonneg_witness :
    (0:ℤ) ≤ 2 ∧ (0:ℤ) ≤ 0 :=
  engine_accounts_nonneg [some (.Deposit ⟨0, 0, 2⟩)] 0 ⟨2, 0, false⟩ (by decide)

/-- C2 is refuted on the code: starting from the empty state, after
Deposit(tx 0, 1), Deposit(tx 1, 1), Dispute(tx 1), Chargeback(tx 1) the
account of client 0 is locked with `available = 1, held = 0`; the subsequent
Dispute(tx 0) nevertheless changes `available` to 0 and `held` to 1, because
`hold_amount` (unlike `add_to_balance`) never checks `locked`. -/
theorem locked_account_balance_change_cex :
    ((handle_transactions TransactionHandler.new
        [some (.Deposit ⟨0, 0, 1⟩), some (.Deposit ⟨0, 1, 1⟩), some (.Dispute ⟨0, 1⟩),
         some (.Chargeback ⟨0, 1⟩)]).account_store 0 = some ⟨1, 0, true⟩) ∧
    ((handle_transactions TransactionHandler.new
        [some (.Deposit ⟨0, 0, 1⟩), some (.Deposit ⟨0, 1, 1⟩), some (.Dispute ⟨0, 1⟩),
         some (.Chargeback ⟨0, 1⟩), some (.Dispute ⟨0, 0⟩)]).account_store 0
      = some ⟨0, 1, true⟩) := by decide

/-- C2 (amended): once `locked` is true, `add_to_balance` — the only operation
the deposit and withdrawal handlers perform — always fails on that account, so
deposits and withdrawals cannot change it; the dispute-driven operations
(`hold_amount`, `release_held_amount`, `charge_back_amount`) do not check
`locked` and may still change `available` and `held`. -/
theorem locked_blocks_add_to_balance (s : AccountStore) (client : ClientId)
    (amount : Amount) (data : AccountData) (hc : s client = some data)
    (hl : data.locked = true) : add_to_balance s client amount = none :=
  add_to_balance_locked_rejected hc hl

theorem locked_blocks_add_to_balance_witness :
    add_to_balance (fun c => if c = 0 then some ⟨1, 0, true⟩ else none) 0 5 = none :=
  locked_blocks_add_to_balance _ 0 5 ⟨1, 0, true⟩ rfl rfl

/-- C4: for every existing client and non-negative amount, `hold_amount` moves
exactly `min(available, amount)` from `available` to `held`,
`release_held_amount` moves exactly `min(held, amount)` from `held` to
`available`, and `charge_back_amount` removes exactly `min(held, amount)` from
`held` without touching `available` and unconditionally sets `locked := true`;
all three succeed (clamping) instead of failing on over-large requests, and no
other account is touched. -/
theorem clamping_ops_spec (s : AccountStore) (client : ClientId) (amount : Amount)
    (data : AccountData) (hc : s client = some data) (ha : 0 ≤ amount) :
    (∃ s1, hold_amount s client amount = some s1 ∧
      s1 client = some ⟨data.available - min data.available amount,
                        data.held + min data.available amount, data.locked⟩ ∧
      ∀ c, c ≠ client → s1 c = s c) ∧
    (∃ s1, release_held_amount s client amount = some s1 ∧
      s1 client = some ⟨data.available + min data.held amount,
                        data.held - min data.held amount, data.locked⟩ ∧
      ∀ c, c ≠ client → s1 c = s c) ∧
    (∃ s1, charge_back_amount s client amount = some s1 ∧
      s1 client = some ⟨data.available, data.held - min data.held amount, true⟩ ∧
      ∀ c, c ≠ client → s1 c = s c) := by
  refine ⟨⟨_, hold_amount_eq hc ha, by simp, fun c hcc => by simp [hcc]⟩,
    ⟨_, release_held_amount_eq hc ha, by simp, fun c hcc => by simp [hcc]⟩,
    ⟨_, charge_back_amount_eq hc ha, by simp, fun c hcc => by simp [hcc]⟩⟩

theorem clamping_ops_spec_witness :
    (∃ s1, hold_amount (fun c => if c = 0 then some ⟨2, 1, false⟩ else none) 0 5
        = some s1 ∧
      s1 0 = some ⟨0, 3, false⟩ ∧
      ∀ c, c ≠ 0 → s1 c = (fun c => if c = 0 then some ⟨2, 1, false⟩ else none) c) ∧
    (∃ s1, release_held_amount (fun c => if c = 0 then some ⟨2, 1, false⟩ else none) 0 5
        = some s1 ∧
      s1 0 = some ⟨3, 0, false⟩ ∧
      ∀ c, c ≠ 0 → s1 c = (fun c => if c = 0 then some ⟨2, 1, false⟩ else none) c) ∧
    (∃ s1, charge_back_amount (fun c => if c = 0 then some ⟨2, 1, false⟩ else none) 0 5
        = some s1 ∧
      s1 0 = some ⟨2, 0, true⟩ ∧
      ∀ c, c ≠ 0 → s1 c = (fun c => if c = 0 then some ⟨2, 1, false⟩ else none) c) :=
  clamping_ops_spec _ 0 5 ⟨2, 1, false⟩ rfl (by decide)

end Ledger

namespace Ledger

/-- C5: every stored deposit starts in `NotDisputed`; `dispute_transaction`
succeeds only from `NotDisputed` and moves the record to `Disputed`;
`undispute_transaction` succeeds only from `Disputed` and moves the record to
`NotDisputed` on Resolve and to `ChargebackOcurred` on Chargeback;
`ChargebackOcurred` is terminal: both operations fail on such a record. -/
theorem dispute_lifecycle :
    (∀ (s : TransactionStore) (r : MonetaryTransactionRecord) (s1 : TransactionStore),
      add_transaction s (.Deposit r) = some s1 →
      s1 r.transaction = some ⟨r.client, r.amount, .NotDisputed⟩) ∧
    (∀ (s : TransactionStore) (r : DisputedTransactionRecord)
       (s1 : TransactionStore) (rec : DisputableTransaction),
      dispute_transaction s r = some (s1, rec) →
      ∃ data, s r.transaction = some data ∧ data.state = DisputeState.NotDisputed ∧
        s1 r.transaction = some ⟨data.client, data.amount, .Disputed⟩) ∧
    (∀ (s : TransactionStore) (r : DisputedTransactionRecord) (o : UndisputeOutcome)
       (s1 : TransactionStore) (rec : DisputableTransaction),
      undispute_transaction s r o = some (s1, rec) →
      ∃ data, s r.transaction = some data ∧ data.state = DisputeState.Disputed ∧
        s1 r.transaction = some ⟨data.client, data.amount, undisputedState o⟩) ∧
    (∀ (s : TransactionStore) (r : DisputedTransactionRecord)
       (data : DisputableTransactionData) (o : UndisputeOutcome),
      s r.transaction = some data → data.state = DisputeState.ChargebackOcurred →
      dispute_transaction s r = none ∧ undispute_transaction s r o = none) := by
  refine ⟨?_, ?_, ?_, ?_⟩
  · intro s r s1 h
    cases hc : s r.transaction with
    | some d =>
      rw [add_transaction_dup hc] at h
      exact Option.noConfusion h
    | none =>
      rw [add_transaction_new_eq hc] at h
      injection h with h
      subst h
      simp
  · intro s r s1 rec h
    obtain ⟨data, hc, hcl, hst, hs1, hrec⟩ := dispute_transaction_inv h
    subst hs1
    exact ⟨data, hc, hst, by simp⟩
  · intro s r o s1 rec h
    obtain ⟨data, hc, hcl, hst, hs1, hrec⟩ := undispute_transaction_inv h
    subst hs1
    exact ⟨data, hc, hst, by simp⟩
  · intro s r data o hc hst
    constructor
    · exact dispute_transaction_wrong_state hc (by rw [hst]; decide)
    · exact undispute_transaction_wrong_state hc (by rw [hst]; decide)

theorem dispute_lifecycle_witness :
    ((fun tx => if tx = (0:TransactionId) then
        some (⟨7, 5, .NotDisputed⟩ : DisputableTransactionData)
      else TransactionStore.empty tx) 0
      = some ⟨7, 5, .NotDisputed⟩) ∧
    (dispute_transaction
        (fun tx => if tx = (0:TransactionId) then
          some (⟨7, 5, .ChargebackOcurred⟩ : DisputableTransactionData) else none)
        ⟨7, 0⟩ = none ∧
     undispute_transaction
        (fun tx => if tx = (0:TransactionId) then
          some (⟨7, 5, .ChargebackOcurred⟩ : DisputableTransactionData) else none)
        ⟨7, 0⟩ .Resolve = none) :=
  ⟨dispute_lifecycle.1 TransactionStore.empty ⟨7, 0, 5⟩ _ rfl,
   dispute_lifecycle.2.2.2 _ ⟨7, 0⟩ ⟨7, 5, .ChargebackOcurred⟩ .Resolve rfl rfl⟩

/-- C6: full behaviour of `add_to_balance`: an unknown client gets a fresh
account `⟨amount, 0, false⟩` exactly when `amount ≥ 0` (and the call fails for
`amount < 0`); for a known client the call fails when the account is locked or
when `available + amount < 0`, and otherwise sets
`available := available + amount` leaving `held` and `locked` unchanged (and
every other account untouched). -/
theorem add_to_balance_spec :
    (∀ (s : AccountStore) (client : ClientId) (amount : Amount),
      s client = none → amount < 0 → add_to_balance s client amount = none) ∧
    (∀ (s : AccountStore) (client : ClientId) (amount : Amount),
      s client = none → 0 ≤ amount →
      ∃ s1, add_to_balance s client amount = some s1 ∧
        s1 client = some ⟨amount, 0, false⟩ ∧ ∀ c, c ≠ client → s1 c = s c) ∧
    (∀ (s : AccountStore) (client : ClientId) (amount : Amount) (data : AccountData),
      s client = some data → data.locked = true →
      add_to_balance s client amount = none) ∧
    (∀ (s : AccountStore) (client : ClientId) (amount : Amount) (data : AccountData),
      s client = some data → data.locked = false → data.available + amount < 0 →
      add_to_balance s client amount = none) ∧
    (∀ (s : AccountStore) (client : ClientId) (amount : Amount) (data : AccountData),
      s client = some data → data.locked = false → 0 ≤ data.available + amount →
      ∃ s1, add_to_balance s client amount = some s1 ∧
        s1 client = some ⟨data.available + amount, data.held, data.locked⟩ ∧
        ∀ c, c ≠ client → s1 c = s c) := by
  refine ⟨?_, ?_, ?_, ?_, ?_⟩
  · intro s client amount hc ha
    exact add_to_balance_new_rejected hc ha
  · intro s client amount hc ha
    exact ⟨_, add_to_balance_new_eq hc ha, by simp, fun c hcc => by simp [hcc]⟩
  · intro s client amount data hc hl
    exact add_to_balance_locked_rejected hc hl
  · intro s client amount data hc hl hneg
    exact add_to_balance_insufficient_rejected hc hl hneg
  · intro s client amount data hc hl hge
    exact ⟨_, add_to_balance_existing_eq hc hl hge, by simp, fun c hcc => by simp [hcc]⟩

theorem add_to_balance_spec_witness :
    (∃ s1, add_to_balance AccountStore.empty 0 5 = some s1 ∧
      s1 0 = some ⟨5, 0, false⟩ ∧ ∀ c, c ≠ 0 → s1 c = AccountStore.empty c) ∧
    add_to_balance (fun c => if c = 0 then some ⟨1, 0, true⟩ else none) 0 2 = none ∧
    add_to_balance (fun c => if c = 0 then some ⟨1, 0, false⟩ else none) 0 (-2)
      = none :=
  ⟨add_to_balance_spec.2.1 AccountStore.empty 0 5 rfl (by decide),
   add_to_balance_spec.2.2.1 _ 0 2 ⟨1, 0, true⟩ rfl rfl,
   add_to_balance_spec.2.2.2.1 _ 0 (-2) ⟨1, 0, false⟩ rfl rfl (by decide)⟩

/-- C7: adding a transaction whose id is already present fails regardless of
the client on the new record, and the deposit handler then returns the whole
state unchanged — the stored record, the transaction store and every account
balance are untouched. -/
theorem duplicate_deposit_rejected (st : TransactionHandler)
    (r : MonetaryTransactionRecord) (d : DisputableTransactionData)
    (hc : st.transaction_store r.transaction = some d) :
    add_transaction st.transaction_store (.Deposit r) = none ∧
    handle_deposit st r = (st, false) :=
  ⟨add_transaction_dup hc, handle_deposit_dup hc⟩

theorem duplicate_deposit_rejected_witness :
    add_transaction
        (fun tx => if tx = (0:TransactionId) then
          some (⟨0, 5, .NotDisputed⟩ : DisputableTransactionData) else none)
        (.Deposit ⟨1, 0, 9⟩) = none ∧
    handle_deposit
        ⟨AccountStore.empty,
         fun tx => if tx = (0:TransactionId) then
          some (⟨0, 5, .NotDisputed⟩ : DisputableTransactionData) else none⟩
        ⟨1, 0, 9⟩
      = (⟨AccountStore.empty,
          fun tx => if tx = (0:TransactionId) then
            some (⟨0, 5, .NotDisputed⟩ : DisputableTransactionData) else none⟩,
         false) :=
  duplicate_deposit_rejected
    ⟨AccountStore.empty,
     fun tx => if tx = (0:TransactionId) then
      some (⟨0, 5, .NotDisputed⟩ : DisputableTransactionData) else none⟩
    ⟨1, 0, 9⟩ ⟨0, 5, .NotDisputed⟩ rfl

/-- C8: processing a withdrawal never changes the transaction record store,
and a dispute, resolve or chargeback whose transaction id has no record
(in particular the id of any transaction that was only ever used by
withdrawals, which are never recorded) fails and leaves the whole state
unchanged. -/
theorem withdrawals_untracked_and_unknown_refs_rejected :
    (∀ (st : TransactionHandler) (r : MonetaryTransactionRecord),
      (handle_withdrawal st r).1.transaction_store = st.transaction_store) ∧
    (∀ (st : TransactionHandler) (r : DisputedTransactionRecord),
      st.transaction_store r.transaction = none →
      handle_dispute st r = (st, false) ∧ handle_resolve st r = (st, false) ∧
      handle_chargeback st r = (st, false)) := by
  refine ⟨handle_withdrawal_frame, ?_⟩
  intro st r hc
  exact ⟨handle_dispute_missing hc, handle_resolve_missing hc,
    handle_chargeback_missing hc⟩

theorem withdrawals_untracked_and_unknown_refs_rejected_witness :
    ((handle_withdrawal TransactionHandler.new ⟨0, 3, 5⟩).1.transaction_store
      = TransactionHandler.new.transaction_store) ∧
    (handle_dispute TransactionHandler.new ⟨0, 3⟩ = (TransactionHandler.new, false) ∧
     handle_resolve TransactionHandler.new ⟨0, 3⟩ = (TransactionHandler.new, false) ∧
     handle_chargeback TransactionHandler.new ⟨0, 3⟩
       = (TransactionHandler.new, false)) :=
  ⟨withdrawals_untracked_and_unknown_refs_rejected.1 TransactionHandler.new ⟨0, 3, 5⟩,
   withdrawals_untracked_and_unknown_refs_rejected.2 TransactionHandler.new ⟨0, 3⟩ rfl⟩

end Ledger

namespace Ledger

/-- C3 is refuted on the code: from the empty state, after Deposit(tx 0, 5),
Deposit(tx 1, 3), Dispute(tx 0), Withdrawal(2) the reachable pre-dispute state
of client 0 is `available = 1, held = 5` with deposit tx 1 recorded and
NotDisputed; Dispute(tx 1) and Resolve(tx 1) then both succeed, but the final
split is `available = 3, held = 3` — not the pre-dispute split: the hold was
clamped to `min(available, 3) = 1` while the release moved the full 3. -/
theorem dispute_resolve_not_restored_cex :
    ((handle_transactions TransactionHandler.new
        [some (.Deposit ⟨0, 0, 5⟩), some (.Deposit ⟨0, 1, 3⟩), some (.Dispute ⟨0, 0⟩),
         some (.Withdrawal ⟨0, 2, 2⟩)]).account_store 0 = some ⟨1, 5, false⟩) ∧
    ((handle_transactions TransactionHandler.new
        [some (.Deposit ⟨0, 0, 5⟩), some (.Deposit ⟨0, 1, 3⟩), some (.Dispute ⟨0, 0⟩),
         some (.Withdrawal ⟨0, 2, 2⟩)]).transaction_store 1
      = some ⟨0, 3, .NotDisputed⟩) ∧
    ((handleTransaction (handle_transactions TransactionHandler.new
        [some (.Deposit ⟨0, 0, 5⟩), some (.Deposit ⟨0, 1, 3⟩), some (.Dispute ⟨0, 0⟩),
         some (.Withdrawal ⟨0, 2, 2⟩)]) (.Dispute ⟨0, 1⟩)).2 = true) ∧
    ((handleTransaction (handle_transactions TransactionHandler.new
        [some (.Deposit ⟨0, 0, 5⟩), some (.Deposit ⟨0, 1, 3⟩), some (.Dispute ⟨0, 0⟩),
         some (.Withdrawal ⟨0, 2, 2⟩), some (.Dispute ⟨0, 1⟩)])
        (.Resolve ⟨0, 1⟩)).2 = true) ∧
    ((handle_transactions TransactionHandler.new
        [some (.Deposit ⟨0, 0, 5⟩), some (.Deposit ⟨0, 1, 3⟩), some (.Dispute ⟨0, 0⟩),
         some (.Withdrawal ⟨0, 2, 2⟩), some (.Dispute ⟨0, 1⟩),
         some (.Resolve ⟨0, 1⟩)]).account_store 0 = some ⟨3, 3, false⟩) := by decide

/-- C3 (amended): Dispute(tx) followed by Resolve(tx) restores the pre-dispute
available/held split exactly — and the record returns to `NotDisputed`, so it
is disputable again — provided the recorded amount does not exceed the
available funds at dispute time (so the hold is not clamped); the recorded
amount must be non-negative and the account's held non-negative, as is the
case in every engine-reachable state. -/
theorem dispute_resolve_restores (st : TransactionHandler) (c : ClientId)
    (tx : TransactionId) (a : Amount) (data : AccountData)
    (hrec : st.transaction_store tx = some ⟨c, a, .NotDisputed⟩)
    (hacc : st.account_store c = some data)
    (ha : 0 ≤ a) (havail : a ≤ data.available) (hheld : 0 ≤ data.held) :
    (handle_dispute st ⟨c, tx⟩).2 = true ∧
    (handle_resolve (handle_dispute st ⟨c, tx⟩).1 ⟨c, tx⟩).2 = true ∧
    (handle_resolve (handle_dispute st ⟨c, tx⟩).1 ⟨c, tx⟩).1.account_store c
      = some data ∧
    (handle_resolve (handle_dispute st ⟨c, tx⟩).1 ⟨c, tx⟩).1.transaction_store tx
      = some ⟨c, a, .NotDisputed⟩ := by
  have hmin1 : min data.available a = a := min_eq_right havail
  have hd := handle_dispute_eq hrec hacc ha
  have hrec1 : (handle_dispute st ⟨c, tx⟩).1.transaction_store tx
      = some ⟨c, a, .Disputed⟩ := by
    rw [hd]
    simp
  have hacc1 : (handle_dispute st ⟨c, tx⟩).1.account_store c
      = some ⟨data.available - a, data.held + a, data.locked⟩ := by
    rw [hd]
    simp [hmin1]
  have hr := handle_resolve_eq hrec1 hacc1 ha
  have hmin2 : min (data.held + a) a = a := min_eq_right (le_add_of_nonneg_left hheld)
  refine ⟨by rw [hd], by rw [hr], ?_, ?_⟩
  · rw [hr]
    have h1 : data.available - a + a = data.available := by ring
    have h2 : data.held + a - a = data.held := by ring
    show (if c = c then
        some ⟨data.available - a + min (data.held + a) a,
              data.held + a - min (data.held + a) a, data.locked⟩
      else (handle_dispute st ⟨c, tx⟩).1.account_store c) = some data
    rw [if_pos rfl, hmin2, h1, h2]
  · rw [hr]
    show (if tx = tx then some (⟨c, a, .NotDisputed⟩ : DisputableTransactionData)
      else (handle_dispute st ⟨c, tx⟩).1.transaction_store tx)
      = some ⟨c, a, .NotDisputed⟩
    rw [if_pos rfl]

theorem dispute_resolve_restores_witness :
    (handle_dispute
        ⟨fun c => if c = 0 then some ⟨5, 1, false⟩ else none,
         fun tx => if tx = 0 then some ⟨0, 3, .NotDisputed⟩ else none⟩ ⟨0, 0⟩).2
      = true ∧
    (handle_resolve (handle_dispute
        ⟨fun c => if c = 0 then some ⟨5, 1, false⟩ else none,
         fun tx => if tx = 0 then some ⟨0, 3, .NotDisputed⟩ else none⟩ ⟨0, 0⟩).1
        ⟨0, 0⟩).2 = true ∧
    (handle_resolve (handle_dispute
        ⟨fun c => if c = 0 then some ⟨5, 1, false⟩ else none,
         fun tx => if tx = 0 then some ⟨0, 3, .NotDisputed⟩ else none⟩ ⟨0, 0⟩).1
        ⟨0, 0⟩).1.account_store 0 = some ⟨5, 1, false⟩ ∧
    (handle_resolve (handle_dispute
        ⟨fun c => if c = 0 then some ⟨5, 1, false⟩ else none,
         fun tx => if tx = 0 then some ⟨0, 3, .NotDisputed⟩ else none⟩ ⟨0, 0⟩).1
        ⟨0, 0⟩).1.transaction_store 0 = some ⟨0, 3, .NotDisputed⟩ :=
  dispute_resolve_restores
    ⟨fun c => if c = 0 then some ⟨5, 1, false⟩ else none,
     fun tx => if tx = 0 then some ⟨0, 3, .NotDisputed⟩ else none⟩
    0 0 3 ⟨5, 1, false⟩ rfl rfl (by decide) (by decide) (by decide)

end Ledger

namespace Ledger

/-- C9 is refuted on the code as stated: from the empty state, Deposit(tx 0, 1)
then Deposit(tx 1, -5) leaves the record tx 1 stored as NotDisputed with the
balance unchanged (the balance change was rejected), but the later
Dispute(tx 1) does NOT succeed: the record transitions to Disputed, yet
`hold_amount` rejects the negative amount, so no hold is placed and the
handler reports failure. -/
theorem failed_deposit_dispute_cex :
    ((handle_transactions TransactionHandler.new
        [some (.Deposit ⟨0, 0, 1⟩), some (.Deposit ⟨0, 1, -5⟩)]).transaction_store 1
      = some ⟨0, -5, .NotDisputed⟩) ∧
    ((handle_transactions TransactionHandler.new
        [some (.Deposit ⟨0, 0, 1⟩), some (.Deposit ⟨0, 1, -5⟩)]).account_store 0
      = some ⟨1, 0, false⟩) ∧
    ((handleTransaction (handle_transactions TransactionHandler.new
        [some (.Deposit ⟨0, 0, 1⟩), some (.Deposit ⟨0, 1, -5⟩)]) (.Dispute ⟨0, 1⟩)).2
      = false) := by decide

/-- C9 (amended): if `add_transaction` succeeds but the subsequent
`add_to_balance` fails, the deposit record nonetheless remains stored with
state `NotDisputed` while the account store is unchanged; if moreover the
deposit amount is non-negative and the client's account exists (e.g. it is
locked), a later Dispute of that transaction id succeeds and places a hold of
`min(available, amount)` for an amount that was never credited to the
account. -/
theorem failed_deposit_record_remains (st : TransactionHandler)
    (r : MonetaryTransactionRecord)
    (hnew : st.transaction_store r.transaction = none)
    (hfail : add_to_balance st.account_store r.client r.amount = none) :
    ((handle_deposit st r).2 = false ∧
     (handle_deposit st r).1.account_store = st.account_store ∧
     (handle_deposit st r).1.transaction_store r.transaction
       = some ⟨r.client, r.amount, .NotDisputed⟩) ∧
    (∀ data, st.account_store r.client = some data → 0 ≤ r.amount →
      (handle_dispute (handle_deposit st r).1 ⟨r.client, r.transaction⟩).2 = true ∧
      (handle_dispute (handle_deposit st r).1
          ⟨r.client, r.transaction⟩).1.account_store r.client
        = some ⟨data.available - min data.available r.amount,
                data.held + min data.available r.amount, data.locked⟩) := by
  have hdep := handle_deposit_fail_keeps_record hnew hfail
  refine ⟨⟨by rw [hdep], by rw [hdep], by rw [hdep]; simp⟩, ?_⟩
  intro data hacc ha
  have hrec1 : (handle_deposit st r).1.transaction_store r.transaction
      = some ⟨r.client, r.amount, .NotDisputed⟩ := by
    rw [hdep]
    simp
  have hacc1 : (handle_deposit st r).1.account_store r.client = some data := by
    rw [hdep]
    exact hacc
  have hd := handle_dispute_eq hrec1 hacc1 ha
  exact ⟨by rw [hd], by rw [hd]; simp⟩

theorem failed_deposit_record_remains_witness :
    (handle_dispute (handle_deposit
        ⟨fun c => if c = 0 then some ⟨3, 0, true⟩ else none,
         TransactionStore.empty⟩ ⟨0, 0, 5⟩).1 ⟨0, 0⟩).2 = true ∧
    (handle_dispute (handle_deposit
        ⟨fun c => if c = 0 then some ⟨3, 0, true⟩ else none,
         TransactionStore.empty⟩ ⟨0, 0, 5⟩).1 ⟨0, 0⟩).1.account_store 0
      = some ⟨0, 3, true⟩ :=
  (failed_deposit_record_remains
      ⟨fun c => if c = 0 then some ⟨3, 0, true⟩ else none, TransactionStore.empty⟩
      ⟨0, 0, 5⟩ rfl rfl).2
    ⟨3, 0, true⟩ rfl (by decide)

/-- C10: a withdrawal row with a (strictly) negative amount parses
successfully; its handler calls `add_to_balance` with the negated — hence
strictly positive — amount, so the "withdrawal" credits funds: for an unknown
client it succeeds and creates a fresh account with `available = -amount`
(an account thus comes into existence without any deposit), and for a known,
unlocked account with non-negative funds it succeeds and strictly increases
`available`. -/
theorem negative_withdrawal_credits (c : ClientId) (tx : TransactionId)
    (a : Amount) (ha : a < 0) :
    raw_to_transaction ⟨.Withdrawal, c, tx, some a⟩
      = some (.Withdrawal ⟨c, tx, a⟩) ∧
    0 < -a ∧
    (∀ st : TransactionHandler, st.account_store c = none →
      (handle_withdrawal st ⟨c, tx, a⟩).2 = true ∧
      (handle_withdrawal st ⟨c, tx, a⟩).1.account_store c = some ⟨-a, 0, false⟩) ∧
    (∀ (st : TransactionHandler) (data : AccountData),
      st.account_store c = some data → data.locked = false → 0 ≤ data.available →
      (handle_withdrawal st ⟨c, tx, a⟩).2 = true ∧
      (handle_withdrawal st ⟨c, tx, a⟩).1.account_store c
        = some ⟨data.available + -a, data.held, data.locked⟩ ∧
      data.available < data.available + -a) := by
  have hpos : 0 < -a := neg_pos.mpr ha
  refine ⟨rfl, hpos, ?_, ?_⟩
  · intro st hc
    unfold handle_withdrawal
    rw [add_to_balance_new_eq hc (le_of_lt hpos)]
    exact ⟨rfl, by simp⟩
  · intro st data hc hl hge
    unfold handle_withdrawal
    rw [add_to_balance_existing_eq hc hl (by positivity)]
    exact ⟨rfl, by simp, lt_add_of_pos_right _ hpos⟩

theorem negative_withdrawal_credits_witness :
    (raw_to_transaction ⟨.Withdrawal, 3, 9, some (-5)⟩
      = some (.Withdrawal ⟨3, 9, -5⟩)) ∧
    ((0:ℤ) < -(-5)) ∧
    ((handle_withdrawal TransactionHandler.new ⟨3, 9, -5⟩).2 = true ∧
     (handle_withdrawal TransactionHandler.new ⟨3, 9, -5⟩).1.account_store 3
       = some ⟨5, 0, false⟩) :=
  ⟨(negative_withdrawal_credits 3 9 (-5) (by decide)).1,
   (negative_withdrawal_credits 3 9 (-5) (by decide)).2.1,
   (negative_withdrawal_credits 3 9 (-5) (by decide)).2.2.1
     TransactionHandler.new rfl⟩

end Ledger
